import Mathlib

/-!
Shallow embedding of the game-suggestion engine of the GameNight repository:
`bot/game_suggester.py` (`suggest_games`) and its data-access collaborator
`data/db_manager.py` (`get_games_owned_by_users`), over the row types of
`data/models.py`. Timestamps are integers in seconds; a Python
`timedelta.days` is floor division by 86400, and Python `//` is floor
division, so both are `Int.fdiv`. Comma-separated string fields
(`UserAvailability.available_days`, `Game.tags`) are modelled as their parsed
lists, with NULL and the empty string both mapped to `[]` (both are falsy in
the source's truthiness guards, and neither is ever split). Python's
`list.sort(key=lambda x: x[1], reverse=True)` is a stable descending sort by
the key; it is modelled by `List.mergeSort` with the reversed comparison,
which is stable with the same tie-breaking behaviour.

One finding shapes the whole development: the common-ownership query in
`get_games_owned_by_users` references `Game.id`, a field the `Game` model
does not have (its primary key is `igdb_id`), so the query raises on every
call and the function's catch-all handler degrades it to `[]`; see the doc
comment on `get_games_owned_by_users` below.
-/

namespace GameNight

/-- Database user id (`User.id`). -/
abbrev UserId := Nat

/-- IGDB game id (`Game.igdb_id`, an integer primary key). -/
abbrev GameId := Int

/-- `data/models.py` `Game` row, restricted to the fields `suggest_games`
reads: `igdb_id`, `tags` (parsed list), `min_players`, `max_players`
(nullable ints), `last_played` (nullable timestamp, seconds). -/
structure Game where
  igdb_id : GameId
  tags : List String
  min_players : Option Int
  max_players : Option Int
  last_played : Option Int
deriving DecidableEq

/-- `data/models.py` `UserGame` row, restricted to the preference fields
read by the scoring loop. -/
structure UserGameRec where
  liked : Bool
  disliked : Bool
  is_installed : Bool
deriving DecidableEq

/-- `data/models.py` `GameNight` row, restricted to the two fields read by
the anti-repetition loop; `selected_game` is the nullable foreign key,
identified by its igdb id. -/
structure GameNightRec where
  scheduled_time : Int
  selected_game : Option GameId
deriving DecidableEq

/-- A read-only snapshot of the database and the clock as `suggest_games`
observes them:

* `availability u` — `UserAvailability.get(user=u)`: `none` when the row does
  not exist (`DoesNotExist`), `some ds` the parsed `available_days` field;
* `exclusion u g` — whether `GameExclusion.get_or_none(user=u, game=g)` finds
  a row;
* `userGame u g` — `UserGame.get_or_none(user=u, game=g)`; a user owns game
  `g` exactly when such a row exists;
* `games` — the `Game` table, in the row order the common-ownership query
  yields its groups;
* `gameNights` — the `GameNight` table;
* `now` (seconds) and `today_weekday` (0 = Monday .. 6 = Sunday) — the
  values of `datetime.now()` and `datetime.now().weekday()`. -/
structure Env where
  today_weekday : Nat
  now : Int
  availability : UserId → Option (List Nat)
  exclusion : UserId → GameId → Bool
  userGame : UserId → GameId → Option UserGameRec
  games : List Game
  gameNights : List GameNightRec

/-- One user's test in the availability pre-filter of `suggest_games`
(`bot/game_suggester.py` lines 29-40): keep the user when they have no
availability row, or when `available_days` is non-empty and contains today's
weekday. -/
def trulyAvailable (env : Env) (uid : UserId) : Bool :=
  match env.availability uid with
  | none => true
  | some ds => !ds.isEmpty && decide (env.today_weekday ∈ ds)

/-- The availability pre-filter: the loop appends the kept users in input
order, i.e. it is a filter. -/
def availabilityFilter (env : Env) (uids : List UserId) : List UserId :=
  uids.filter (trulyAvailable env)

/-- `data/db_manager.py` `get_games_owned_by_users`: `[]` for an empty user
list; otherwise the `try` block builds
`Game.select().join(UserGame).where(...).group_by(Game.id).having(...)`, but
the `Game` model's primary key is `igdb_id` (`data/models.py` line 57) and
peewee does not give a model a field named `id` when it declares its own
primary key (nor inherit the base model's implicit `id` primary key), so
evaluating `Game.id` raises `AttributeError` inside the `try`; the
function's `except Exception` logs it and returns `[]`. The intersection is
therefore never computed: every call returns `[]`. -/
def get_games_owned_by_users (_env : Env) (user_ids : List UserId) : List Game :=
  if user_ids.isEmpty then []
  else []

/-- Group-size component of the score (`bot/game_suggester.py` lines 66-76),
translated branch for branch from the `if`/`elif` chain. -/
def groupSizeScore (group_size : Option Int) (g : Game) : Int :=
  match group_size with
  | none => 0
  | some gs =>
    match g.min_players, g.max_players with
    | some mn, some mx =>
      if mn ≤ gs ∧ gs ≤ mx then 10
      else if mn ≤ gs + 2 ∧ gs - 2 ≤ mx then 5
      else 0
    | some mn, none => if mn ≤ gs then 3 else 0
    | none, some mx => if gs ≤ mx then 3 else 0
    | none, none => 0

/-- Recency component of the score (lines 78-88): `time_diff.days` is the
floor of the elapsed seconds over 86400; the `-10`/`-5` bands and the capped
age bonus `min(days // 30, 10)` are added together. -/
def recencyScore (now : Int) (g : Game) : Int :=
  match g.last_played with
  | none => 0
  | some lp =>
    let d : Int := (now - lp).fdiv 86400
    (if d < 1 then -10 else if d < 7 then -5 else 0) + min (d.fdiv 30) 10

/-- Tag component of the score (lines 90-95): guarded by truthiness of both
`preferred_tags` and `game.tags`, then +50 per preferred tag present in the
game's tags. -/
def tagScore (preferred_tags : List String) (g : Game) : Int :=
  if !preferred_tags.isEmpty && !g.tags.isEmpty then
    (preferred_tags.map (fun t => if t ∈ g.tags then (50 : Int) else 0)).sum
  else 0

/-- One user's like/dislike/installed contribution (lines 100-107):
`disliked` is only consulted when `liked` is false, `is_installed` stacks
with either. -/
def userGameScore (r : UserGameRec) : Int :=
  (if r.liked then 20 else if r.disliked then -20 else 0) +
    (if r.is_installed then 15 else 0)

/-- Preference component of the score (lines 97-107): summed over every user
of the caller-supplied `available_user_ids` list; a missing `UserGame` row
contributes 0. -/
def preferenceScore (env : Env) (available_user_ids : List UserId) (g : Game) : Int :=
  (available_user_ids.map (fun u =>
    match env.userGame u g.igdb_id with
    | none => 0
    | some r => userGameScore r)).sum

/-- Anti-repetition component of the score (lines 109-113): −50 for every
`GameNight` row with `scheduled_time > now - timedelta(days=30)` whose
`selected_game` is non-null and has this game's igdb id. -/
def historyScore (env : Env) (g : Game) : Int :=
  ((env.gameNights.filter (fun gn => decide (env.now - 30 * 86400 < gn.scheduled_time))).map
    (fun gn => if gn.selected_game == some g.igdb_id then (-50 : Int) else 0)).sum

/-- Total score of one game (lines 62-115): the sum of the five independent
components accumulated into `score`. -/
def gameScore (env : Env) (available_user_ids : List UserId) (group_size : Option Int)
    (preferred_tags : List String) (g : Game) : Int :=
  groupSizeScore group_size g + recencyScore env.now g + tagScore preferred_tags g +
    preferenceScore env available_user_ids g + historyScore env g

/-- The exclusion test of lines 51-59: a game is kept when no user of the
original `available_user_ids` list has a `GameExclusion` row for it. -/
def notExcluded (env : Env) (available_user_ids : List UserId) (g : Game) : Bool :=
  available_user_ids.all (fun u => !env.exclusion u g.igdb_id)

/-- The comparison handed to the final sort: Python's
`sort(key=lambda x: x[1], reverse=True)` is a stable sort that puts `a`
before `b` when `b`'s key is at most `a`'s. -/
def scoreLE (a b : Game × Int) : Bool :=
  decide (b.2 ≤ a.2)

/-- `bot/game_suggester.py` `suggest_games` (lines 12-120): availability
pre-filter, early return on an empty filtered pool, common-ownership query,
early return on an empty intersection, exclusion filter over the original
user list, scoring, stable descending sort by score, and projection back to
the games. -/
def suggest_games (env : Env) (available_user_ids : List UserId)
    (group_size : Option Int) (preferred_tags : List String) : List Game :=
  let truly := availabilityFilter env available_user_ids
  if truly.isEmpty then []
  else
    let common := get_games_owned_by_users env truly
    if common.isEmpty then []
    else
      let filtered := common.filter (notExcluded env available_user_ids)
      let scored := filtered.map
        (fun g => (g, gameScore env available_user_ids group_size preferred_tags g))
      (scored.mergeSort scoreLE).map Prod.fst

/-- The games that survive the availability pre-filter, the common-ownership
step and the exclusion step — the list `suggest_games` goes on to score. -/
def survivors (env : Env) (available_user_ids : List UserId) : List Game :=
  (get_games_owned_by_users env (availabilityFilter env available_user_ids)).filter
    (notExcluded env available_user_ids)

theorem scoreLE_trans (a b c : Game × Int) (h1 : scoreLE a b) (h2 : scoreLE b c) :
    scoreLE a c := by
  simp only [scoreLE, decide_eq_true_eq] at *
  exact le_trans h2 h1

theorem scoreLE_total (a b : Game × Int) : scoreLE a b || scoreLE b a := by
  simp only [scoreLE, Bool.or_eq_true, decide_eq_true_eq]
  exact le_total b.2 a.2

theorem snd_eq_of_mem_map_pair {f : Game → Int} {l : List Game} {p : Game × Int}
    (h : p ∈ l.map (fun g => (g, f g))) : p.2 = f p.1 := by
  rcases List.mem_map.mp h with ⟨g, -, rfl⟩
  rfl

/-- `suggest_games` unfolded: the early-empty returns coincide with sorting
the (then empty) survivor list, so the function is the stable descending sort
of the scored survivors, projected back to the games. -/
theorem suggest_games_eq (env : Env) (uids : List UserId) (gsz : Option Int)
    (tags : List String) :
    suggest_games env uids gsz tags =
      (((survivors env uids).map
        (fun g => (g, gameScore env uids gsz tags g))).mergeSort scoreLE).map Prod.fst := by
  unfold suggest_games survivors
  by_cases h1 : (availabilityFilter env uids).isEmpty
  · have : get_games_owned_by_users env (availabilityFilter env uids) = [] := by
      unfold get_games_owned_by_users
      simp [h1]
    simp [h1, this]
  · simp only [h1, if_false]
    by_cases h2 : (get_games_owned_by_users env (availabilityFilter env uids)).isEmpty
    · rw [List.isEmpty_iff] at h2
      simp [h2]
    · simp [h2]

/-- Stability of the modelled sort, phrased per tie class: filtering the
sorted list to one score value gives exactly the filter of the input. -/
theorem mergeSort_filter_snd (l : List (Game × Int)) (c : Int) :
    (l.mergeSort scoreLE).filter (fun p => p.2 == c) = l.filter (fun p => p.2 == c) := by
  have hA : (l.filter (fun p => p.2 == c)).Pairwise (fun a b => scoreLE a b = true) := by
    apply List.pairwise_of_forall_mem_list
    intro a ha b hb
    have ha2 : a.2 = c := by simpa using (List.mem_filter.mp ha).2
    have hb2 : b.2 = c := by simpa using (List.mem_filter.mp hb).2
    simp [scoreLE, ha2, hb2]
  have hsub : List.Sublist (l.filter (fun p => p.2 == c)) (l.mergeSort scoreLE) :=
    List.sublist_mergeSort scoreLE_trans scoreLE_total hA (List.filter_sublist l)
  have hperm : ((l.mergeSort scoreLE).filter (fun p => p.2 == c)).Perm
      (l.filter (fun p => p.2 == c)) :=
    (List.mergeSort_perm l scoreLE).filter _
  have hsub2 : List.Sublist (l.filter (fun p => p.2 == c))
      ((l.mergeSort scoreLE).filter (fun p => p.2 == c)) := by
    have h := hsub.filter (fun p => p.2 == c)
    rwa [List.filter_eq_self.mpr (fun a ha => (List.mem_filter.mp ha).2)] at h
  exact (hsub2.eq_of_length hperm.length_eq.symm).symm

/-- The common-ownership query never succeeds: both branches of its embedded
definition are the empty list (the error path is the only path). -/
theorem get_games_owned_by_users_eq_nil (env : Env) (l : List UserId) :
    get_games_owned_by_users env l = [] := by
  unfold get_games_owned_by_users
  split <;> rfl

/-- Consequence of the `Game.id` failure: the program's suggestion list is
empty on every input — either the availability filter empties the pool, or
the always-empty candidate list short-circuits the rest of the pipeline. -/
theorem suggest_games_always_nil (env : Env) (uids : List UserId)
    (gsz : Option Int) (tags : List String) :
    suggest_games env uids gsz tags = [] := by
  unfold suggest_games
  by_cases ht : (availabilityFilter env uids).isEmpty
  · simp [ht]
  · simp [ht, get_games_owned_by_users_eq_nil]

/-- C10: ties are resolved deterministically by the survivor order — for any
score value, the result's games with that score are exactly (and in the same
relative order as) the survivors with that score: the exclusion pass is a
filter and the sort is stable. -/
theorem suggest_games_ties_keep_order (env : Env) (uids : List UserId)
    (gsz : Option Int) (tags : List String) (c : Int) :
    (suggest_games env uids gsz tags).filter
        (fun g => gameScore env uids gsz tags g == c) =
      (survivors env uids).filter (fun g => gameScore env uids gsz tags g == c) := by
  rw [suggest_games_eq]
  set f := gameScore env uids gsz tags with hf
  set scored := (survivors env uids).map (fun g => (g, f g)) with hscored
  have h1 : ((scored.mergeSort scoreLE).map Prod.fst).filter (fun g => f g == c) =
      ((scored.mergeSort scoreLE).filter (fun p => p.2 == c)).map Prod.fst := by
    rw [List.filter_map]
    congr 1
    apply List.filter_congr
    intro p hp
    rw [Function.comp_apply, snd_eq_of_mem_map_pair (List.mem_mergeSort.mp hp)]
  have h2 : (scored.filter (fun p => p.2 == c)).map Prod.fst =
      (survivors env uids).filter (fun g => f g == c) := by
    rw [hscored, List.filter_map, List.map_map]
    exact (List.map_congr_left (fun a _ => rfl)).trans (List.map_id _)
  rw [h1, mergeSort_filter_snd, h2]

/-- A game is in the output exactly when it survives the three filtering
steps; the sort and the projection do not change membership. -/
theorem mem_suggest_games (env : Env) (uids : List UserId) (gsz : Option Int)
    (tags : List String) (g : Game) :
    g ∈ suggest_games env uids gsz tags ↔ g ∈ survivors env uids := by
  rw [suggest_games_eq]
  simp only [List.mem_map, List.mem_mergeSort]
  constructor
  · rintro ⟨p, ⟨a, ha, rfl⟩, rfl⟩
    exact ha
  · intro h
    exact ⟨(g, gameScore env uids gsz tags g), ⟨g, h, rfl⟩, rfl⟩

/-- One user's availability test, characterized: kept iff there is no
availability row or the row's day set contains today's weekday. -/
theorem trulyAvailable_iff (env : Env) (u : UserId) :
    trulyAvailable env u = true ↔
      (env.availability u = none ∨
        ∃ ds, env.availability u = some ds ∧ env.today_weekday ∈ ds) := by
  unfold trulyAvailable
  cases h : env.availability u with
  | none => simp
  | some ds =>
    simp only [Bool.and_eq_true, Bool.not_eq_true', decide_eq_true_eq, reduceCtorEq,
      Option.some.injEq, false_or]
    constructor
    · rintro ⟨-, hmem⟩
      exact ⟨ds, rfl, hmem⟩
    · rintro ⟨ds', hds', hmem⟩
      cases hds'
      refine ⟨?_, hmem⟩
      cases ds with
      | nil => cases hmem
      | cons a t => rfl

/-- C4: the availability filter keeps exactly the users with no availability
row or whose day set contains the reference weekday; a user whose set misses
the day (the empty set included) is dropped, and the output is an
order-preserving sublist of the input. -/
theorem availabilityFilter_spec (env : Env) (uids : List UserId) :
    (∀ u, u ∈ availabilityFilter env uids ↔
      u ∈ uids ∧ (env.availability u = none ∨
        ∃ ds, env.availability u = some ds ∧ env.today_weekday ∈ ds)) ∧
    List.Sublist (availabilityFilter env uids) uids := by
  constructor
  · intro u
    rw [availabilityFilter, List.mem_filter, trulyAvailable_iff]
  · exact List.filter_sublist uids

/-- C3: an exclusion row held by any user of the original caller-supplied
list vetoes the game — no game with the excluded igdb id appears anywhere in
the output, whatever its score. -/
theorem exclusion_is_veto (env : Env) (uids : List UserId) (gsz : Option Int)
    (tags : List String) (u : UserId) (gid : GameId)
    (hu : u ∈ uids) (hx : env.exclusion u gid = true) :
    ∀ g ∈ suggest_games env uids gsz tags, g.igdb_id ≠ gid := by
  intro g hg hgid
  have hsurv := (mem_suggest_games env uids gsz tags g).mp hg
  have hkeep := (List.mem_filter.mp hsurv).2
  unfold notExcluded at hkeep
  rw [List.all_eq_true] at hkeep
  have := hkeep u hu
  rw [hgid, hx] at this
  cases this

/-- An ownership row with no preference flags set, for concrete instances. -/
def plainOwn : UserGameRec := ⟨false, false, false⟩

/-- Concrete game row with igdb id 5 and every optional field absent. -/
def gameA : Game := ⟨5, [], none, none, none⟩

/-- Concrete game row with igdb id 7 and every optional field absent. -/
def gameB : Game := ⟨7, [], none, none, none⟩

/-- Concrete snapshot: user 0 has no availability row, owns games 5 and 7,
and has excluded game 7; no game nights. -/
def envW : Env where
  today_weekday := 0
  now := 0
  availability := fun _ => none
  exclusion := fun u g => decide (u = 0 ∧ g = 7)
  userGame := fun u g => if u = 0 ∧ (g = 5 ∨ g = 7) then some plainOwn else none
  games := [gameA, gameB]
  gameNights := []

/-- C2 (code bug): in this snapshot the availability-filtered group is the
non-empty, duplicate-free `[0]`, its only member has a `UserGame` row for
game 5, and game 5 is a `Game`-table row — yet the candidate list computed
by `get_games_owned_by_users` is empty: candidacy is never equivalent to
common ownership, because the query's `group_by(Game.id)` raises and the
`except` returns `[]`. -/
theorem common_games_code_bug :
    availabilityFilter envW [0] = [0] ∧
      (envW.userGame 0 gameA.igdb_id).isSome = true ∧
      gameA ∈ envW.games ∧
      get_games_owned_by_users envW (availabilityFilter envW [0]) = [] := by
  decide

/-- C1 (code bug): in the same snapshot user 0 — the whole group — owns
game 5, which nobody has excluded, so the claim's ranked survivor list would
contain game 5; but `suggest_games` returns `[]`, because the
common-ownership query always degrades to the empty list. -/
theorem suggest_games_code_bug :
    (envW.userGame 0 gameA.igdb_id).isSome = true ∧
      envW.exclusion 0 gameA.igdb_id = false ∧
      gameA ∈ envW.games ∧
      suggest_games envW [0] none [] = [] := by
  decide

/-- C3's theorem applied at a concrete snapshot: user 0 is in the input list
and excludes game 7, so no returned game can carry igdb id 7. -/
theorem exclusion_is_veto_witness :
    (0 : UserId) ∈ ([0] : List UserId) ∧ envW.exclusion 0 7 = true ∧
      (∀ g ∈ suggest_games envW [0] none [], g.igdb_id ≠ 7) :=
  ⟨by decide, by decide,
    exclusion_is_veto envW [0] none [] 0 7 (by decide) (by decide)⟩

/-- Modelled from the spec (§4.2 group-size fit), for comparison with the
source-derived `groupSizeScore`: +10 when both bounds are present and
`group_size` lies in `[min_players, max_players]`; otherwise +5 when both are
present and `group_size` lies in the ±2-widened window
`[min_players − 2, max_players + 2]`; +3 when only `min_players` is present
and `group_size ≥ min_players`; +3 when only `max_players` is present and
`group_size ≤ max_players`; else 0, and 0 when no group size is given. -/
def groupSizeScoreSpec (group_size : Option Int) (g : Game) : Int :=
  match group_size with
  | none => 0
  | some gs =>
    match g.min_players, g.max_players with
    | some mn, some mx =>
      if mn ≤ gs ∧ gs ≤ mx then 10
      else if mn - 2 ≤ gs ∧ gs ≤ mx + 2 then 5
      else 0
    | some mn, none => if gs ≥ mn then 3 else 0
    | none, some mx => if gs ≤ mx then 3 else 0
    | none, none => 0

/-- C5: the group-size contribution is exactly the spec's case analysis —
the source's widened test `min ≤ gs + 2 and max ≥ gs − 2` is the spec's
`gs ∈ [min − 2, max + 2]`, and every other branch coincides. -/
theorem groupSizeScore_eq_spec (group_size : Option Int) (g : Game) :
    groupSizeScore group_size g = groupSizeScoreSpec group_size g := by
  rcases group_size with _ | gs
  · rfl
  rcases hmn : g.min_players with _ | mn <;> rcases hmx : g.max_players with _ | mx <;>
    simp only [groupSizeScore, groupSizeScoreSpec, hmn, hmx, ge_iff_le]
  by_cases h1 : mn ≤ gs ∧ gs ≤ mx
  · rw [if_pos h1, if_pos h1]
  · rw [if_neg h1, if_neg h1]
    by_cases h2 : mn - 2 ≤ gs ∧ gs ≤ mx + 2
    · rw [if_pos (by omega), if_pos h2]
    · rw [if_neg (by omega), if_neg h2]

/-- C6: with `last_played` set, the total score is the score of the same game
with `last_played` absent plus exactly the recency band (−10 under one day,
else −5 under seven days, else 0) and the capped age bonus
`min(days // 30, 10)`, both applied together, where the day count is the
floor of the elapsed seconds over 86400; with `last_played` absent the
recency factor is exactly 0. -/
theorem recency_contribution (env : Env) (uids : List UserId) (gsz : Option Int)
    (tags : List String) (g : Game) (lp : Int) :
    (gameScore env uids gsz tags { g with last_played := some lp } =
      gameScore env uids gsz tags { g with last_played := none } +
        ((if (env.now - lp).fdiv 86400 < 1 then (-10 : Int)
          else if (env.now - lp).fdiv 86400 < 7 then -5 else 0) +
         min (((env.now - lp).fdiv 86400).fdiv 30) 10)) ∧
    recencyScore env.now { g with last_played := none } = 0 := by
  refine ⟨?_, rfl⟩
  have hrc : recencyScore env.now { g with last_played := some lp } =
      (if (env.now - lp).fdiv 86400 < 1 then (-10 : Int)
       else if (env.now - lp).fdiv 86400 < 7 then -5 else 0) +
        min (((env.now - lp).fdiv 86400).fdiv 30) 10 := rfl
  have hr0 : recencyScore env.now { g with last_played := none } = 0 := rfl
  have hgs : groupSizeScore gsz { g with last_played := some lp } =
      groupSizeScore gsz { g with last_played := none } := rfl
  have htg : tagScore tags { g with last_played := some lp } =
      tagScore tags { g with last_played := none } := rfl
  have hpf : preferenceScore env uids { g with last_played := some lp } =
      preferenceScore env uids { g with last_played := none } := rfl
  have hhs : historyScore env { g with last_played := some lp } =
      historyScore env { g with last_played := none } := rfl
  unfold gameScore
  rw [hrc, hr0, hgs, htg, hpf, hhs]
  ring

/-- Modelled from the spec (§4.2 per-user preference), for comparison: +20
when the ownership row has `liked`; −20 when it has `disliked` and not
`liked`; an independent, stacking +15 when it has `is_installed`; 0 for a
user with no ownership row. -/
def preferenceScoreSpec (env : Env) (available_user_ids : List UserId) (g : Game) : Int :=
  (available_user_ids.map (fun u =>
    match env.userGame u g.igdb_id with
    | none => 0
    | some r =>
      (if r.liked then (20 : Int) else 0) +
        (if r.disliked ∧ r.liked = false then -20 else 0) +
        (if r.is_installed then 15 else 0))).sum

/-- C7: inside the total score, the preference contribution summed over the
user list `suggest_games` passes — the original caller-supplied one — is
exactly the spec's per-user formula. -/
theorem gameScore_preference_spec (env : Env) (uids : List UserId)
    (gsz : Option Int) (tags : List String) (g : Game) :
    gameScore env uids gsz tags g =
      groupSizeScore gsz g + recencyScore env.now g + tagScore tags g +
        preferenceScoreSpec env uids g + historyScore env g := by
  unfold gameScore
  have h : preferenceScore env uids g = preferenceScoreSpec env uids g := by
    unfold preferenceScore preferenceScoreSpec
    congr 1
    apply List.map_congr_left
    intro u hu
    cases env.userGame u g.igdb_id with
    | none => rfl
    | some r =>
      unfold userGameScore
      rcases r with ⟨l, dd, i⟩
      cases l <;> cases dd <;> cases i <;> decide
  rw [h]

/-- Modelled from the claim for C8: −50 only for *prior* sessions inside the
trailing 30-day window — scheduled after `now − 30` days and at or before
`now` — whose selected game is this game. -/
def historyScoreClaim (env : Env) (g : Game) : Int :=
  ((env.gameNights.filter (fun gn =>
      decide (env.now - 30 * 86400 < gn.scheduled_time) &&
        decide (gn.scheduled_time ≤ env.now))).map
    (fun gn => if gn.selected_game == some g.igdb_id then (-50 : Int) else 0)).sum

/-- Concrete snapshot whose only game night is scheduled one day in the
*future* and selected game 5. -/
def envFuture : Env where
  today_weekday := 0
  now := 0
  availability := fun _ => none
  exclusion := fun _ _ => false
  userGame := fun _ _ => none
  games := [gameA]
  gameNights := [⟨86400, some 5⟩]

/-- C8 counterexample: the source's window test is only
`scheduled_time > now − 30 days`, so a session scheduled one day in the
future — outside any trailing 30-day history — is still penalized −50,
whereas the claim's prior-sessions-only reading gives 0. -/
theorem historyScore_counterexample :
    historyScore envFuture gameA = -50 ∧ historyScoreClaim envFuture gameA = 0 := by
  decide

/-- Sum-to-count helper for the anti-repetition component: summing −50 over
the `Q`-matches of a `P`-filtered list counts the `P && Q` matches. -/
theorem sum_neg50_eq_count (P Q : GameNightRec → Bool) (l : List GameNightRec) :
    ((l.filter P).map (fun gn => if Q gn then (-50 : Int) else 0)).sum =
      -50 * ((l.filter (fun gn => P gn && Q gn)).length : Int) := by
  induction l with
  | nil => rfl
  | cons gn t ih =>
    cases hP : P gn
    · simp [List.filter_cons, hP, ih]
    · cases hQ : Q gn
      · simp [List.filter_cons, hP, hQ, ih]
      · simp [List.filter_cons, hP, hQ, ih]
        ring

/-- C8 amended: the anti-repetition contribution is exactly −50 for each
session whose `scheduled_time` is strictly later than 30 days before `now` —
future sessions included — and whose selected game equals this game; sessions
scheduled at or before that cutoff contribute nothing. -/
theorem historyScore_amended (env : Env) (g : Game) :
    historyScore env g =
      -50 * ((env.gameNights.filter (fun gn =>
        decide (env.now - 30 * 86400 < gn.scheduled_time) &&
          (gn.selected_game == some g.igdb_id))).length : Int) :=
  sum_neg50_eq_count (fun gn => decide (env.now - 30 * 86400 < gn.scheduled_time))
    (fun gn => gn.selected_game == some g.igdb_id) env.gameNights

/-- Outcome of one ORM lookup: a row, a `DoesNotExist` miss, or any other
database exception. Peewee's `get` raises `DoesNotExist` on a miss;
`get_or_none` converts only that exception into `None`; every other
exception propagates to the caller. -/
inductive DbResult (α : Type) where
  | ok (a : α)
  | notFound
  | dbError
deriving DecidableEq

/-- Fallible variant of the snapshot, distinguishing lookup failures from
record absence. The common-ownership query needs no failure flag: it fails
unconditionally (the `Game.id` bug) and its `try/except Exception` degrades
every call to `[]`. `nightsFail` models an exception in the
`GameNight.select()` history query, which no handler catches. -/
structure EnvE where
  today_weekday : Nat
  now : Int
  availabilityE : UserId → DbResult (List Nat)
  exclusionE : UserId → GameId → DbResult Unit
  userGameE : UserId → GameId → DbResult UserGameRec
  games : List Game
  gameNights : List GameNightRec
  nightsFail : Bool

/-- The availability loop of lines 29-40 with fallible lookups: the source's
`try` catches only `UserAvailability.DoesNotExist` (keeping the user); any
other exception escapes the loop. -/
def trulyAvailableE (env : EnvE) : List UserId → Except Unit (List UserId)
  | [] => Except.ok []
  | u :: us =>
    match env.availabilityE u with
    | DbResult.dbError => Except.error ()
    | DbResult.notFound =>
      match trulyAvailableE env us with
      | Except.error e => Except.error e
      | Except.ok rest => Except.ok (u :: rest)
    | DbResult.ok ds =>
      if !ds.isEmpty && decide (env.today_weekday ∈ ds) then
        match trulyAvailableE env us with
        | Except.error e => Except.error e
        | Except.ok rest => Except.ok (u :: rest)
      else trulyAvailableE env us

/-- `get_games_owned_by_users` in the fallible world: the query construction
raises `AttributeError` at `Game.id` on every call, and the function's own
`try/except Exception` handler logs it and returns `[]`. -/
def get_games_owned_by_usersE (_env : EnvE) (user_ids : List UserId) : List Game :=
  if user_ids.isEmpty then []
  else []

/-- Both branches of the fallible common-ownership query are empty. -/
theorem get_games_owned_by_usersE_eq_nil (env : EnvE) (l : List UserId) :
    get_games_owned_by_usersE env l = [] := by
  unfold get_games_owned_by_usersE
  split <;> rfl

/-- The inner exclusion loop of lines 53-57 with fallible lookups: it breaks
at the first exclusion row found, and `get_or_none` re-raises anything that
is not `DoesNotExist`. -/
def isExcludedE (env : EnvE) (g : Game) : List UserId → Except Unit Bool
  | [] => Except.ok false
  | u :: us =>
    match env.exclusionE u g.igdb_id with
    | DbResult.dbError => Except.error ()
    | DbResult.ok _ => Except.ok true
    | DbResult.notFound => isExcludedE env g us

/-- The exclusion filter of lines 51-59 with fallible lookups. -/
def filterExcludedE (env : EnvE) (uids : List UserId) : List Game → Except Unit (List Game)
  | [] => Except.ok []
  | g :: rest =>
    match isExcludedE env g uids with
    | Except.error e => Except.error e
    | Except.ok ex =>
      match filterExcludedE env uids rest with
      | Except.error e => Except.error e
      | Except.ok fr => Except.ok (if ex then fr else g :: fr)

/-- The preference loop of lines 97-107 with fallible lookups. -/
def preferenceScoreE (env : EnvE) (g : Game) : List UserId → Except Unit Int
  | [] => Except.ok 0
  | u :: us =>
    match env.userGameE u g.igdb_id with
    | DbResult.dbError => Except.error ()
    | DbResult.notFound => preferenceScoreE env g us
    | DbResult.ok r =>
      match preferenceScoreE env g us with
      | Except.error e => Except.error e
      | Except.ok s => Except.ok (userGameScore r + s)

/-- The history query of lines 109-113 with a fallible `select()`. -/
def historySumE (env : EnvE) (g : Game) : Except Unit Int :=
  if env.nightsFail then Except.error ()
  else
    Except.ok (((env.gameNights.filter (fun gn =>
        decide (env.now - 30 * 86400 < gn.scheduled_time))).map
      (fun gn => if gn.selected_game == some g.igdb_id then (-50 : Int) else 0)).sum)

/-- One game's score with fallible lookups, in the source's evaluation
order: the pure factors, then the preference loop, then the history query. -/
def gameScoreE (env : EnvE) (uids : List UserId) (gsz : Option Int) (tags : List String)
    (g : Game) : Except Unit Int :=
  match preferenceScoreE env g uids with
  | Except.error e => Except.error e
  | Except.ok pref =>
    match historySumE env g with
    | Except.error e => Except.error e
    | Except.ok hist =>
      Except.ok (groupSizeScore gsz g + recencyScore env.now g + tagScore tags g +
        pref + hist)

/-- The scoring loop of lines 62-115 with fallible lookups. -/
def scoreGamesE (env : EnvE) (uids : List UserId) (gsz : Option Int) (tags : List String) :
    List Game → Except Unit (List (Game × Int))
  | [] => Except.ok []
  | g :: rest =>
    match gameScoreE env uids gsz tags g with
    | Except.error e => Except.error e
    | Except.ok s =>
      match scoreGamesE env uids gsz tags rest with
      | Except.error e => Except.error e
      | Except.ok r => Except.ok ((g, s) :: r)

/-- `suggest_games` with fallible lookups: only `DoesNotExist` (availability,
`get_or_none`) and a common-ownership query failure are handled; every other
lookup failure propagates as an uncaught exception. -/
def suggestGamesE (env : EnvE) (uids : List UserId) (gsz : Option Int)
    (tags : List String) : Except Unit (List Game) :=
  match trulyAvailableE env uids with
  | Except.error e => Except.error e
  | Except.ok truly =>
    if truly.isEmpty then Except.ok []
    else
      let common := get_games_owned_by_usersE env truly
      if common.isEmpty then Except.ok []
      else
        match filterExcludedE env uids common with
        | Except.error e => Except.error e
        | Except.ok filtered =>
          match scoreGamesE env uids gsz tags filtered with
          | Except.error e => Except.error e
          | Except.ok scored => Except.ok ((scored.mergeSort scoreLE).map Prod.fst)

/-- Fallible snapshot where the availability lookup for every user raises a
non-`DoesNotExist` database exception. -/
def envAvailFail : EnvE where
  today_weekday := 0
  now := 0
  availabilityE := fun _ => DbResult.dbError
  exclusionE := fun _ _ => DbResult.notFound
  userGameE := fun _ _ => DbResult.ok plainOwn
  games := [gameA]
  gameNights := []
  nightsFail := false

/-- C9 counterexample: with a failing availability lookup for user 0 the
computation raises instead of completing — the failed lookup is not treated
as absent (which would have kept the user and let the call complete). -/
theorem suggestGamesE_counterexample :
    suggestGamesE envAvailFail [0] none [] = Except.error () := rfl

/-- A user list with no raising availability lookup passes the availability
loop. -/
theorem trulyAvailableE_ok (env : EnvE) (uids : List UserId)
    (h : ∀ u ∈ uids, env.availabilityE u ≠ DbResult.dbError) :
    ∃ l, trulyAvailableE env uids = Except.ok l := by
  induction uids with
  | nil => exact ⟨[], rfl⟩
  | cons u us ih =>
    obtain ⟨l, hl⟩ := ih (fun v hv => h v (List.mem_cons_of_mem u hv))
    unfold trulyAvailableE
    cases ha : env.availabilityE u with
    | dbError => exact absurd ha (h u (List.mem_cons_self u us))
    | notFound =>
      rw [hl]
      exact ⟨u :: l, rfl⟩
    | ok ds =>
      dsimp only
      by_cases hc : (!ds.isEmpty && decide (env.today_weekday ∈ ds)) = true
      · rw [if_pos hc, hl]
        exact ⟨u :: l, rfl⟩
      · rw [if_neg hc, hl]
        exact ⟨l, rfl⟩

/-- A user list containing a raising availability lookup makes the
availability loop raise: the loop has no early exit short of the exception. -/
theorem trulyAvailableE_error (env : EnvE) (uids : List UserId)
    (h : ∃ u ∈ uids, env.availabilityE u = DbResult.dbError) :
    trulyAvailableE env uids = Except.error () := by
  induction uids with
  | nil => simp at h
  | cons u us ih =>
    unfold trulyAvailableE
    rcases h with ⟨v, hv, hverr⟩
    rcases List.mem_cons.mp hv with rfl | hv'
    · rw [hverr]
    · cases ha : env.availabilityE u with
      | dbError => rfl
      | notFound => rw [ih ⟨v, hv', hverr⟩]
      | ok ds =>
        dsimp only
        rw [ih ⟨v, hv', hverr⟩]
        split <;> rfl

/-- C9 amended: the two fail-soft points are record absence (`DoesNotExist`,
degraded to absent/zero) and the common-ownership query, whose unconditional
failure is caught inside `db_manager` and degraded to the empty candidate
list. Consequently, when no availability lookup raises, the call completes
with `[]` no matter how the exclusion, preference and history lookups would
fail — the empty candidate list short-circuits before any of them runs;
whereas a raising availability lookup is uncaught and propagates out of
`suggest_games`. -/
theorem suggestGamesE_failure_boundary (env : EnvE) (uids : List UserId)
    (gsz : Option Int) (tags : List String) :
    ((∀ u ∈ uids, env.availabilityE u ≠ DbResult.dbError) →
      suggestGamesE env uids gsz tags = Except.ok []) ∧
    ((∃ u ∈ uids, env.availabilityE u = DbResult.dbError) →
      suggestGamesE env uids gsz tags = Except.error ()) := by
  constructor
  · intro hna
    obtain ⟨truly, htr⟩ := trulyAvailableE_ok env uids hna
    unfold suggestGamesE
    rw [htr]
    by_cases ht : truly.isEmpty
    · simp [ht]
    · simp [ht, get_games_owned_by_usersE_eq_nil]
  · intro h
    unfold suggestGamesE
    rw [trulyAvailableE_error env uids h]

/-- Fallible snapshot where availability rows are merely missing but every
exclusion, preference and history lookup would raise — none of them is ever
reached. -/
def envOtherFail : EnvE where
  today_weekday := 0
  now := 0
  availabilityE := fun _ => DbResult.notFound
  exclusionE := fun _ _ => DbResult.dbError
  userGameE := fun _ _ => DbResult.dbError
  games := [gameA]
  gameNights := []
  nightsFail := true

/-- C9's amended theorem applied at concrete snapshots: with no availability
failure the call completes with `[]` even though every downstream lookup
would raise; with a failing availability lookup it propagates the error. -/
theorem suggestGamesE_failure_boundary_witness :
    suggestGamesE envOtherFail [0] none [] = Except.ok [] ∧
      suggestGamesE envAvailFail [0] none [] = Except.error () :=
  ⟨(suggestGamesE_failure_boundary envOtherFail [0] none []).1 (by decide),
    (suggestGamesE_failure_boundary envAvailFail [0] none []).2 (by decide)⟩

end GameNight
